import Mathlib

set_option maxRecDepth 40000

/-!
Shallow embedding of the trip-planner pipeline (`src/trip_components.py`).

Python dictionaries produced by JSON parsing are modelled as structures with
optional fields (`none` = key absent / value unusable).  Python `float`
values are modelled by the exact rational value of the IEEE-754 binary64
number they denote, and every arithmetic operation the source performs on
floats (the `sum(...) / len(...)` centroid in `create_map`) goes through an
explicit round-to-nearest-even rounding step `fround`, so float rounding is
part of the model.  The two external services (the text-generation API and
the geocoding HTTP endpoint) are modelled as oracles passed in as arguments:
the prompt parameters (location, duration, category, num_spots) and HTTP
request details (headers, timeout, `format=json`, `limit=1`) only influence
which response comes back, so they are absorbed into the oracle.  A Python
exception escaping a function is modelled by `Except.error` / `none` results.
-/

/- The `Batteries` rational arithmetic is `@[irreducible]` by default, which
blocks `decide` from evaluating the embedded functions on concrete inputs;
restore unfolding so concrete runs are checkable. -/
attribute [local semireducible] Rat.add Rat.mul Rat.inv Rat.sub

/-- A geocode-result coordinate dictionary (`{'lat': ..., 'lon': ...}`); the
`create_map` code checks each key's presence separately, so fields are
optional. -/
structure Coords where
  lat : Option ℚ
  lon : Option ℚ
deriving DecidableEq

/-- A spot dictionary as parsed from LLM JSON output and passed through the
pipeline: keys `name`, `type`, `remarks`, and (after geocoding) `coordinates`.
Any key may be absent, since the code never validates parsed JSON fields. -/
structure Spot where
  name : Option String
  type : Option String
  remarks : Option String
  coordinates : Option Coords
deriving DecidableEq

/-! ## LLMHandler (`get_recommendations`, `_fallback_request`)

`chain.invoke` runs the prompt through the LLM and the JSON output parser.
Its observable outcome is: an exception (`err`, covering API failure and
unparsable output), a parsed JSON list, or a single parsed JSON object
(which the code wraps in a one-element list).  `llm.invoke` in the fallback
returns raw text or raises.  `json.loads` is modelled as an oracle
`loads` (`none` = the call raises). -/

/-- Outcome of `chain.invoke` in `get_recommendations`. -/
inductive ChainResult where
  | err : ChainResult
  | list : List Spot → ChainResult
  | single : Spot → ChainResult

/-- Oracle describing one behaviour of the text-generation API and of JSON
parsing, under which `get_recommendations` runs. -/
structure LLMBehavior where
  chainResult : ChainResult
  fallbackText : Option (List Char)
  loads : List Char → Option (List Spot)

/-- Python `str.strip()`: remove leading and trailing whitespace. -/
def pyStrip (s : List Char) : List Char :=
  ((s.dropWhile Char.isWhitespace).reverse.dropWhile Char.isWhitespace).reverse

/-- Python `str.find(c)`: index of first occurrence, `-1` if absent. -/
def pyFind (s : List Char) (c : Char) : Int :=
  match s.findIdx? (fun x => x = c) with
  | some i => (i : Int)
  | none => -1

/-- Python `str.rfind(c)`: index of last occurrence, `-1` if absent. -/
def pyRfind (s : List Char) (c : Char) : Int :=
  match s.reverse.findIdx? (fun x => x = c) with
  | some i => ((s.length - 1 - i : Nat) : Int)
  | none => -1

/-- Python slice `s[start:stop]` for the non-negative indices produced by
`find`/`rfind` under the guards in `_fallback_request`. -/
def pySlice (s : List Char) (start stop : Int) : List Char :=
  (s.take stop.toNat).drop start.toNat

/-- `LLMHandler._fallback_request`: invoke the LLM with a simple prompt and
try to extract a JSON array from the raw text.  Returns the parsed value
(`none` = the Python function returns `None`, on exception or when no
bracketed substring is found) paired with the number of text-generation API
invocations performed (always 1: `self.llm.invoke(simple_prompt)` is issued
before any parsing can fail). -/
def fallback_request (b : LLMBehavior) : Option (List Spot) × Nat :=
  match b.fallbackText with
  | none => (none, 1)
  | some s =>
    let t := pyStrip s
    if t.head? = some '[' then (b.loads t, 1)
    else
      let start := pyFind t '['
      let stop := pyRfind t ']' + 1
      if start ≠ -1 ∧ stop ≠ 0 then (b.loads (pySlice t start stop), 1)
      else (none, 1)

/-- `LLMHandler.get_recommendations`: run the structured chain; wrap a single
object in a list; on any exception fall back to `_fallback_request`.  Returns
the result paired with the total number of text-generation API invocations. -/
def get_recommendations (b : LLMBehavior) : Option (List Spot) × Nat :=
  match b.chainResult with
  | ChainResult.err =>
    let p := fallback_request b
    (p.1, 1 + p.2)
  | ChainResult.list xs => (some xs, 1)
  | ChainResult.single x => (some [x], 1)

/-! ## GeocodingHandler (`get_coordinates`, `_geocode_spot`)

One geocoding lookup (`requests.get` on the Nominatim search endpoint plus the
subsequent status / body / JSON checks) is modelled by a `GeoReply` describing
what the code observes about the response, and `geocode_attempt` replays the
code's checks on it.  The service is an oracle `String → GeoReply` keyed by
the query string `q`. -/

/-- First element of the JSON body returned by the geocoding service, as the
code reads it: `float(data[0]['lat'])` / `float(data[0]['lon'])`.  A field is
`none` when the key is missing or `float(...)` raises; both exceptions are
caught and advance to the next phrasing. -/
structure GeoResult where
  lat : Option ℚ
  lon : Option ℚ
deriving DecidableEq

/-- Observable outcome of one `requests.get` to the geocoding endpoint.
`json = none` models a body that `response.json()` cannot turn into a usable
JSON list (malformed JSON, or a non-list value on which `data[0]` raises). -/
structure GeoReply where
  netErr : Bool
  status : Nat
  bodyEmpty : Bool
  json : Option (List GeoResult)

/-- One iteration of the query loop in `_geocode_spot`: request, status check,
empty-body check, JSON parse, then return the first result's coordinates.
`none` means this attempt failed and the loop continues with the next
phrasing. -/
def geocode_attempt (r : GeoReply) : Option Coords :=
  if r.netErr then none
  else if r.status ≠ 200 then none
  else if r.bodyEmpty then none
  else
    match r.json with
    | none => none
    | some [] => none
    | some (first :: _) =>
      match first.lat, first.lon with
      | some la, some lo => some { lat := some la, lon := some lo }
      | _, _ => none

/-- The three search phrasings tried by `_geocode_spot`, in order. -/
def search_queries (spot_name location : String) : List String :=
  [spot_name ++ ", " ++ location, spot_name, location ++ " " ++ spot_name]

/-- The `for query in search_queries` loop of `_geocode_spot`: returns the
first successful attempt's coordinates (or `none`), paired with the list of
queries actually issued to the service, in order. -/
def geocode_go (svc : String → GeoReply) : List String → Option Coords × List String
  | [] => (none, [])
  | q :: rest =>
    match geocode_attempt (svc q) with
    | some c => (some c, [q])
    | none =>
      let p := geocode_go svc rest
      (p.1, q :: p.2)

/-- `GeocodingHandler._geocode_spot`. -/
def _geocode_spot (svc : String → GeoReply) (spot_name location : String) :
    Option Coords :=
  (geocode_go svc (search_queries spot_name location)).1

/-- `GeocodingHandler.get_coordinates`.  Accessing `spot['name']` on a dict
without that key raises `KeyError`, which nothing in this function catches;
that is modelled by `Except.error ()` propagating to the caller. -/
def get_coordinates (svc : String → GeoReply) :
    List Spot → String → Except Unit (List Spot)
  | [], _ => Except.ok []
  | spot :: rest, location =>
    match spot.name with
    | none => Except.error ()
    | some nm =>
      match _geocode_spot svc nm location, get_coordinates svc rest location with
      | some c, Except.ok tail =>
        Except.ok ({ spot with coordinates := some c } :: tail)
      | some _, Except.error e => Except.error e
      | none, r => r

/-! ### A store-passing model of `get_coordinates` for the mutation claim

Python dictionaries are mutable heap objects; `spot.copy()` followed by
`spot_with_coords['coordinates'] = coords` mutates only the fresh copy.  To
state that the inputs are not mutated we make the heap explicit: a `Store`
maps addresses to dictionary values, `alloc` models `spot.copy()` (a fresh
address holding the same value) and `write` models item assignment. -/

/-- Explicit heap of spot dictionaries: addresses below `next` are allocated. -/
structure Store where
  mem : Nat → Spot
  next : Nat

/-- Item assignment `d[k] = v` on the dictionary at address `a`. -/
def Store.write (σ : Store) (a : Nat) (v : Spot) : Store :=
  { mem := fun x => if x = a then v else σ.mem x, next := σ.next }

/-- `d.copy()`: allocate a fresh address holding the value `v`. -/
def Store.alloc (σ : Store) (v : Spot) : Store × Nat :=
  ({ mem := fun x => if x = σ.next then v else σ.mem x, next := σ.next + 1 },
   σ.next)

/-- `GeocodingHandler.get_coordinates` over the explicit heap: the input is a
list of addresses of candidate dictionaries; the output list holds addresses
of the copies (`spot.copy()`) with `'coordinates'` assigned on the copy. -/
def get_coordinates_st (svc : String → GeoReply) (σ : Store) :
    List Nat → String → Except Unit (Store × List Nat)
  | [], _ => Except.ok (σ, [])
  | a :: rest, location =>
    match (σ.mem a).name with
    | none => Except.error ()
    | some nm =>
      match _geocode_spot svc nm location with
      | some c =>
        let p := σ.alloc (σ.mem a)
        let σ2 := p.1.write p.2 { σ.mem a with coordinates := some c }
        match get_coordinates_st svc σ2 rest location with
        | Except.error e => Except.error e
        | Except.ok (σ3, outs) => Except.ok (σ3, p.2 :: outs)
      | none => get_coordinates_st svc σ rest location

/-- Decidable equality of modelled call results, so that concrete runs of the
embedded functions can be checked by `decide`. -/
instance {e a : Type} [DecidableEq e] [DecidableEq a] : DecidableEq (Except e a) := fun x y =>
  match x, y with
  | Except.ok u, Except.ok v =>
    if h : u = v then Decidable.isTrue (congrArg Except.ok h)
    else Decidable.isFalse (fun hh => h (Except.ok.inj hh))
  | Except.error u, Except.error v =>
    if h : u = v then Decidable.isTrue (congrArg Except.error h)
    else Decidable.isFalse (fun hh => h (Except.error.inj hh))
  | Except.ok _, Except.error _ => Decidable.isFalse (fun hh => Except.noConfusion hh)
  | Except.error _, Except.ok _ => Decidable.isFalse (fun hh => Except.noConfusion hh)

/-! ## IEEE-754 binary64 arithmetic

`create_map` computes its view center with Python floats, so its arithmetic
is not exact: every operation rounds its exact result to the nearest binary64
value (ties to even).  The model works with the exact rational value of each
float and makes the rounding step explicit: `fround q` is the binary64 value
nearest to `q`.  Overflow to infinity is outside the model's scope (it treats
every magnitude as finite), which is exact for the coordinate-scale values
the pipeline handles. -/

/-- Bit length of a natural number below `2^32`, by halving (fuel-bounded so
that recursion is structural and kernel-reducible). -/
def bitlenSmall : Nat → Nat → Nat
  | 0, _ => 0
  | fuel + 1, m => if m = 0 then 0 else bitlenSmall fuel (m / 2) + 1

/-- Bit length of a natural number, peeling 32 bits per step; fuel 70 covers
numbers up to `2^2272`, far beyond the binary64 exponent range. -/
def bitlen : Nat → Nat → Nat
  | 0, _ => 0
  | fuel + 1, m =>
    if m < 4294967296 then bitlenSmall 32 m else bitlen fuel (m / 4294967296) + 32

/-- `⌊log₂ |q|⌋` for a nonzero rational `q = n / d`: for `n ≥ d` it is one
less than the bit length of `n / d` (integer division); for `n < d` it is
`-m` for the least `m` with `n * 2^m ≥ d`, located from the bit length of
`d / n` and one comparison. -/
def ratFloorLog2 (q : ℚ) : ℤ :=
  if q.num.natAbs ≥ q.den then (bitlen 70 (q.num.natAbs / q.den) : ℤ) - 1
  else
    -(if q.den ≤ q.num.natAbs * 2 ^ (bitlen 70 (q.den / q.num.natAbs) - 1)
      then (bitlen 70 (q.den / q.num.natAbs) : ℤ) - 1
      else (bitlen 70 (q.den / q.num.natAbs) : ℤ))

/-- Round a rational to the nearest integer, ties to the even neighbour (the
IEEE-754 default rounding of a value halfway between two representables). -/
def roundHalfEven (q : ℚ) : ℤ :=
  if q - ⌊q⌋ < 1 / 2 then ⌊q⌋
  else if 1 / 2 < q - ⌊q⌋ then ⌊q⌋ + 1
  else if ⌊q⌋ % 2 = 0 then ⌊q⌋ else ⌊q⌋ + 1

/-- Round an exact rational value to the (value of the) nearest IEEE-754
binary64 number: scale by the unit in the last place — `2^(⌊log₂|q|⌋ - 52)`,
clamped below at the subnormal ulp `2^(-1074)` — round to an integer number
of ulps with ties to even, and scale back.  This is the result of a Python
float operation whose exact result is `q`. -/
def fround (q : ℚ) : ℚ :=
  if q = 0 then 0
  else
    (roundHalfEven (q / 2 ^ (max (ratFloorLog2 q - 52) (-1074))) : ℚ) *
      2 ^ (max (ratFloorLog2 q - 52) (-1074))

/-- Python float addition: exact sum, then binary64 rounding. -/
def fadd (x y : ℚ) : ℚ := fround (x + y)

/-- Python float division: exact quotient, then binary64 rounding. -/
def fdiv (x y : ℚ) : ℚ := fround (x / y)

/-- Python `sum` over a list of floats: left-to-right `fadd` starting from
the integer 0. -/
def fsum (l : List ℚ) : ℚ := l.foldl fadd 0

/-! ## MapHandler (`create_map`)

`folium` objects are modelled by the renderable data the code puts into them:
the view center, zoom, and one `Pin` per marker with its location, popup
HTML, tooltip and color. -/

/-- One `folium.Marker` as configured by `create_map`. -/
structure Pin where
  lat : ℚ
  lon : ℚ
  popup : String
  tooltip : String
  color : String
deriving DecidableEq

/-- The renderable content of the `folium.Map` built by `create_map`. -/
structure MapModel where
  center_lat : ℚ
  center_lon : ℚ
  zoom_start : Nat
  pins : List Pin
deriving DecidableEq

/-- The validity filter in `create_map`: `'coordinates' in spot and
'lat' in spot['coordinates'] and 'lon' in spot['coordinates']`. -/
def isValidSpot (s : Spot) : Bool :=
  match s.coordinates with
  | some c => c.lat.isSome && c.lon.isSome
  | none => false

/-- `spot['coordinates']['lat']` of a spot that passed the validity filter
(defaults are never reached on filtered spots). -/
def spotLat (s : Spot) : ℚ :=
  ((s.coordinates.getD { lat := none, lon := none }).lat).getD 0

/-- `spot['coordinates']['lon']` of a spot that passed the validity filter. -/
def spotLon (s : Spot) : ℚ :=
  ((s.coordinates.getD { lat := none, lon := none }).lon).getD 0

/-- The marker color palette of `create_map`. -/
def colors : List String :=
  ["red", "blue", "green", "purple", "orange"]

/-- The marker built for `valid_spots[i]`: location, popup
`<b>{name}</b><br>{remarks}` with `spot.get` defaults, tooltip, and
`colors[i % len(colors)]`. -/
def mkPin (i : Nat) (s : Spot) : Pin :=
  { lat := spotLat s
    lon := spotLon s
    popup := "<b>" ++ s.name.getD "Unknown" ++ "</b><br>" ++
      s.remarks.getD "No description"
    tooltip := s.name.getD "Unknown location"
    color := colors.getD (i % colors.length) "" }

/-- The `for i, spot in enumerate(valid_spots)` marker loop. -/
def mkPins : Nat → List Spot → List Pin
  | _, [] => []
  | i, s :: rest => mkPin i s :: mkPins (i + 1) rest

/-! ### Concrete service behaviours and inputs used to exercise the model -/

/-- A geocoding service where every request fails with a network error. -/
def svcDown : String → GeoReply :=
  fun _ => { netErr := true, status := 0, bodyEmpty := true, json := none }

/-- A geocoding service that always returns one result at latitude 10,
longitude 20. -/
def svcAt1020 : String → GeoReply :=
  fun _ => { netErr := false, status := 200, bodyEmpty := false,
             json := some [{ lat := some 10, lon := some 20 }] }

/-- A geocoding service whose first result parses to the out-of-range
latitude 1000. -/
def svcLat1000 : String → GeoReply :=
  fun _ => { netErr := false, status := 200, bodyEmpty := false,
             json := some [{ lat := some 1000, lon := some 0 }] }

/-- A geocoding service that returns zero results for every phrasing of the
spot named `Atlantis` in `Paris` and succeeds elsewhere. -/
def svcNoAtlantis : String → GeoReply := fun q =>
  if q = "Atlantis, Paris" ∨ q = "Atlantis" ∨ q = "Paris Atlantis" then
    { netErr := false, status := 200, bodyEmpty := false, json := some [] }
  else
    { netErr := false, status := 200, bodyEmpty := false,
      json := some [{ lat := some 10, lon := some 20 }] }

/-- A well-formed candidate spot. -/
def louvre : Spot :=
  { name := some "Louvre", type := some "museum",
    remarks := some "Famous museum", coordinates := none }

/-- A well-formed candidate spot that `svcNoAtlantis` cannot geocode. -/
def atlantis : Spot :=
  { name := some "Atlantis", type := none, remarks := none, coordinates := none }

/-- A malformed candidate spot: the parsed JSON object has no `name` key. -/
def nameless : Spot :=
  { name := none, type := some "museum", remarks := some "desc",
    coordinates := none }

/-- `louvre` with a resolved coordinate attached. -/
def louvreAt : Spot :=
  { louvre with coordinates := some { lat := some 10, lon := some 20 } }

/-- An LLM behaviour where the chain raises and the fallback request also
raises. -/
def llmDown : LLMBehavior :=
  { chainResult := ChainResult.err, fallbackText := none, loads := fun _ => none }

/-- An LLM behaviour whose chain parses to a one-element list containing a
malformed (nameless) object. -/
def llmBadElement : LLMBehavior :=
  { chainResult := ChainResult.list [nameless], fallbackText := none,
    loads := fun _ => none }

/-- A one-candidate heap for exercising the store-passing resolver. -/
def storeDemo : Store := { mem := fun _ => louvre, next := 1 }

/-- The exact rational value of the binary64 number written `0.1` in Python:
`3602879701896397 * 2^(-55)`. -/
def q01 : ℚ := 3602879701896397 / 36028797018963968

/-- `MapHandler.create_map`.  The Python local variables `valid_spots`,
`lats`, `lons` are inlined; `sum(lats) / len(lats)` is float arithmetic
(`fsum` then `fdiv`), the `len` being a small integer that converts to a
binary64 value exactly. -/
def create_map (spots_with_coords : List Spot) : Option MapModel :=
  if spots_with_coords.isEmpty then none
  else if (spots_with_coords.filter isValidSpot).isEmpty then none
  else some
    { center_lat := fdiv (fsum ((spots_with_coords.filter isValidSpot).map spotLat))
        (((spots_with_coords.filter isValidSpot).map spotLat).length : ℚ)
      center_lon := fdiv (fsum ((spots_with_coords.filter isValidSpot).map spotLon))
        (((spots_with_coords.filter isValidSpot).map spotLon).length : ℚ)
      zoom_start := 12
      pins := mkPins 0 (spots_with_coords.filter isValidSpot) }

/-- `_fallback_request` performs exactly one text-generation API invocation. -/
theorem fallback_request_calls (b : LLMBehavior) : (fallback_request b).2 = 1 := by
  unfold fallback_request
  cases b.fallbackText with
  | none => rfl
  | some s =>
    dsimp only
    split
    · rfl
    · split
      · rfl
      · rfl

/-- When every candidate has a `name`, `get_coordinates` returns normally and
its output is exactly the geocodable subsequence with coordinates attached. -/
theorem get_coordinates_eq (svc : String → GeoReply) (location : String)
    (spots : List Spot) (h : ∀ s ∈ spots, s.name.isSome) :
    get_coordinates svc spots location =
      Except.ok
        ((spots.filter fun s =>
            (_geocode_spot svc (s.name.getD "") location).isSome).map
          fun s =>
            { s with coordinates := _geocode_spot svc (s.name.getD "") location }) := by
  induction spots with
  | nil => rfl
  | cons spot rest ih =>
    obtain ⟨nm, hnm⟩ :=
      Option.isSome_iff_exists.mp (h spot (List.mem_cons_self _ _))
    have htail := ih (fun s hs => h s (List.mem_cons_of_mem _ hs))
    cases hg : _geocode_spot svc nm location with
    | some c =>
      simp [get_coordinates, hnm, htail, hg, List.filter_cons]
    | none =>
      simp [get_coordinates, hnm, htail, hg, List.filter_cons]

/-- The query loop issues no more lookups than there are phrasings. -/
theorem geocode_go_len (svc : String → GeoReply) (qs : List String) :
    (geocode_go svc qs).2.length ≤ qs.length := by
  induction qs with
  | nil => simp [geocode_go]
  | cons q rest ih =>
    cases hg : geocode_attempt (svc q) with
    | some c => simp [geocode_go, hg]
    | none => simp [geocode_go, hg]; omega

/-- Complete case analysis of the query loop: either every issued attempt
failed and all phrasings were issued, or the issued queries are the failing
prefix followed by the first succeeding query, whose coordinates are
returned. -/
theorem geocode_go_cases (svc : String → GeoReply) (qs : List String) :
    ((geocode_go svc qs).1 = none ∧ (geocode_go svc qs).2 = qs ∧
      ∀ q ∈ qs, geocode_attempt (svc q) = none) ∨
    (∃ qs₁ q qs₂ c, qs = qs₁ ++ q :: qs₂ ∧
      (geocode_go svc qs).2 = qs₁ ++ [q] ∧
      (∀ x ∈ qs₁, geocode_attempt (svc x) = none) ∧
      geocode_attempt (svc q) = some c ∧
      (geocode_go svc qs).1 = some c) := by
  induction qs with
  | nil => exact Or.inl ⟨rfl, rfl, by simp⟩
  | cons q rest ih =>
    cases hg : geocode_attempt (svc q) with
    | some c =>
      refine Or.inr ⟨[], q, rest, c, by simp, ?_, by simp, hg, ?_⟩
      · simp [geocode_go, hg]
      · simp [geocode_go, hg]
    | none =>
      rcases ih with ⟨h1, h2, h3⟩ | ⟨qs₁, q', qs₂, c, hqs, h2, h3, h4, h5⟩
      · refine Or.inl ⟨?_, ?_, ?_⟩
        · simp [geocode_go, hg, h1]
        · simp [geocode_go, hg, h2]
        · intro x hx
          rcases List.mem_cons.mp hx with rfl | hx
          · exact hg
          · exact h3 x hx
      · refine Or.inr ⟨q :: qs₁, q', qs₂, c, by rw [hqs]; rfl, ?_, ?_, h4, ?_⟩
        · simp [geocode_go, hg, h2]
        · intro x hx
          rcases List.mem_cons.mp hx with rfl | hx
          · exact hg
          · exact h3 x hx
        · simp [geocode_go, hg, h5]

/-- A successful attempt comes from a 200-status, non-empty, JSON-list reply
whose first result carries the returned latitude and longitude. -/
theorem geocode_attempt_json (r : GeoReply) (c : Coords)
    (h : geocode_attempt r = some c) :
    ∃ fr rs, r.json = some (fr :: rs) ∧ fr.lat = c.lat ∧ fr.lon = c.lon := by
  unfold geocode_attempt at h
  split at h
  · exact absurd h (by simp)
  · split at h
    · exact absurd h (by simp)
    · split at h
      · exact absurd h (by simp)
      · revert h
        cases hj : r.json with
        | none => intro h; exact absurd h (by simp)
        | some l =>
          cases l with
          | nil => intro h; exact absurd h (by simp)
          | cons fr rs =>
            cases hla : fr.lat with
            | none => intro h; simp [hla] at h
            | some la =>
              cases hlo : fr.lon with
              | none => intro h; simp [hla, hlo] at h
              | some lo =>
                intro h
                simp only [hla, hlo] at h
                refine ⟨fr, rs, rfl, ?_, ?_⟩
                · rw [hla, ← Option.some.inj h]
                · rw [hlo, ← Option.some.inj h]

/-- A successful `_geocode_spot` result is some attempt's result. -/
theorem geocode_spot_attempt (svc : String → GeoReply) (nm loc : String)
    (c : Coords) (h : _geocode_spot svc nm loc = some c) :
    ∃ q, geocode_attempt (svc q) = some c := by
  rcases geocode_go_cases svc (search_queries nm loc) with ⟨h1, _, _⟩ | ⟨_, q, _, c', _, _, _, h4, h5⟩
  · rw [_geocode_spot, h1] at h; exact absurd h (by simp)
  · rw [_geocode_spot, h5] at h
    exact ⟨q, by rw [h4, Option.some.inj h]⟩

/-- Every spot in a normally-returned `get_coordinates` output carries a
coordinate that `_geocode_spot` produced for some name. -/
theorem get_coordinates_ok_coords (svc : String → GeoReply) (loc : String) :
    ∀ (spots out : List Spot),
      get_coordinates svc spots loc = Except.ok out →
      ∀ s ∈ out, ∃ c nm, s.coordinates = some c ∧ _geocode_spot svc nm loc = some c := by
  intro spots
  induction spots with
  | nil =>
    intro out h s hs
    rw [get_coordinates] at h
    cases Except.ok.inj h
    exact absurd hs (by simp)
  | cons spot rest ih =>
    intro out h s hs
    rw [get_coordinates] at h
    cases hnm : spot.name with
    | none => rw [hnm] at h; exact absurd h (by simp)
    | some nm =>
      rw [hnm] at h
      dsimp only at h
      cases hg : _geocode_spot svc nm loc with
      | some c =>
        rw [hg] at h
        cases ht : get_coordinates svc rest loc with
        | error e => rw [ht] at h; exact absurd h (by simp)
        | ok tail =>
          rw [ht] at h
          dsimp only at h
          cases Except.ok.inj h
          rcases List.mem_cons.mp hs with rfl | hs2
          · exact ⟨c, nm, rfl, hg⟩
          · exact ih tail ht s hs2
      | none =>
        rw [hg] at h
        dsimp only at h
        exact ih out h s hs

/-- The marker loop builds one pin per valid spot. -/
theorem mkPins_length : ∀ (i : Nat) (l : List Spot), (mkPins i l).length = l.length := by
  intro i l
  induction l generalizing i with
  | nil => rfl
  | cons s rest ih => simp [mkPins, ih]

/-- Every pin built by the marker loop takes its location from a spot in the
list it was built from. -/
theorem mkPins_mem : ∀ (i : Nat) (l : List Spot) (p : Pin), p ∈ mkPins i l →
    ∃ s ∈ l, p.lat = spotLat s ∧ p.lon = spotLon s := by
  intro i l
  induction l generalizing i with
  | nil => intro p hp; exact absurd hp (by simp [mkPins])
  | cons s rest ih =>
    intro p hp
    rcases List.mem_cons.mp hp with rfl | hp2
    · exact ⟨s, List.mem_cons_self _ _, rfl, rfl⟩
    · obtain ⟨s2, hs2, h1, h2⟩ := ih (i + 1) p hp2
      exact ⟨s2, List.mem_cons_of_mem _ hs2, h1, h2⟩

/-- Inversion of `create_map` on a `some` result: the rendered model is built
from the valid-spot sublist. -/
theorem create_map_some (spots : List Spot) (m : MapModel)
    (h : create_map spots = some m) :
    m.center_lat = fdiv (fsum ((spots.filter isValidSpot).map spotLat))
        (((spots.filter isValidSpot).map spotLat).length : ℚ) ∧
    m.center_lon = fdiv (fsum ((spots.filter isValidSpot).map spotLon))
        (((spots.filter isValidSpot).map spotLon).length : ℚ) ∧
    m.pins = mkPins 0 (spots.filter isValidSpot) := by
  unfold create_map at h
  split at h
  · exact absurd h (by simp)
  · split at h
    · exact absurd h (by simp)
    · cases Option.some.inj h
      exact ⟨rfl, rfl, rfl⟩

/-- Frame property of the store-passing resolver: a normal return never
changes any dictionary allocated before the call — coordinates are only ever
written to fresh copies. -/
theorem get_coordinates_st_frame (svc : String → GeoReply) (loc : String) :
    ∀ (addrs : List Nat) (σ σ' : Store) (outs : List Nat),
      get_coordinates_st svc σ addrs loc = Except.ok (σ', outs) →
      σ.next ≤ σ'.next ∧ ∀ a, a < σ.next → σ'.mem a = σ.mem a := by
  intro addrs
  induction addrs with
  | nil =>
    intro σ σ' outs h
    rw [get_coordinates_st] at h
    cases Except.ok.inj h
    exact ⟨le_refl _, fun a _ => rfl⟩
  | cons a rest ih =>
    intro σ σ' outs h
    rw [get_coordinates_st] at h
    cases hnm : (σ.mem a).name with
    | none => rw [hnm] at h; exact absurd h (by simp)
    | some nm =>
      rw [hnm] at h
      dsimp only at h
      cases hg : _geocode_spot svc nm loc with
      | some c =>
        rw [hg] at h
        dsimp only at h
        cases ht : get_coordinates_st svc
            ((σ.alloc (σ.mem a)).1.write (σ.alloc (σ.mem a)).2
              { σ.mem a with coordinates := some c }) rest loc with
        | error e => rw [ht] at h; exact absurd h (by simp)
        | ok r =>
          rw [ht] at h
          dsimp only at h
          cases Except.ok.inj h
          obtain ⟨hle, hmem⟩ := ih _ _ _ ht
          have hnext : ((σ.alloc (σ.mem a)).1.write (σ.alloc (σ.mem a)).2
              { σ.mem a with coordinates := some c }).next = σ.next + 1 := rfl
          constructor
          · rw [hnext] at hle; omega
          · intro x hx
            have hx2 : x < ((σ.alloc (σ.mem a)).1.write (σ.alloc (σ.mem a)).2
                { σ.mem a with coordinates := some c }).next := by
              rw [hnext]; omega
            rw [hmem x hx2]
            have hxne : x ≠ σ.next := by omega
            simp [Store.write, Store.alloc, hxne]
      | none =>
        rw [hg] at h
        exact ih _ _ _ h

/-- `create_map` on a non-empty list of valid spots: explicit result. -/
theorem create_map_all_valid (spots : List Spot) (hne : spots ≠ [])
    (hv : ∀ s ∈ spots, isValidSpot s = true) :
    create_map spots = some
      { center_lat := fdiv (fsum (spots.map spotLat)) (spots.length : ℚ)
        center_lon := fdiv (fsum (spots.map spotLon)) (spots.length : ℚ)
        zoom_start := 12
        pins := mkPins 0 spots } := by
  have hfilter : spots.filter isValidSpot = spots := List.filter_eq_self.mpr hv
  unfold create_map
  rw [hfilter]
  rw [if_neg (by simp [List.isEmpty_iff, hne]), if_neg (by simp [List.isEmpty_iff, hne])]
  simp [List.length_map]

/-- A left fold of float additions over copies of one value `la`, starting
from a multiple of `la`, stays on exact multiples of `la` as long as every
such multiple is a value float addition reproduces exactly. -/
theorem foldl_fadd_const (la : ℚ) :
    ∀ (k j : ℕ), (∀ i : ℕ, i ≤ j + k → fround ((i : ℚ) * la) = (i : ℚ) * la) →
      List.foldl fadd ((j : ℚ) * la) (List.replicate k la) = (((j + k : ℕ) : ℚ)) * la := by
  intro k
  induction k with
  | zero => intro j h; simp
  | succ k ih =>
    intro j h
    have h1 : fadd ((j : ℚ) * la) la = (((j + 1 : ℕ) : ℚ)) * la := by
      have h2 := h (j + 1) (by omega)
      have h3 : (j : ℚ) * la + la = ((j + 1 : ℕ) : ℚ) * la := by push_cast; ring
      rw [fadd, h3, h2]
    rw [List.replicate_succ, List.foldl_cons, h1]
    have h4 := ih (j + 1) (fun i hi => h i (by omega))
    rw [h4]
    congr 1
    push_cast
    ring

/-- Float summation of `n` copies of `la` is exactly `n * la` when every
multiple of `la` up to `n` is reproduced exactly by rounding. -/
theorem fsum_const (la : ℚ) (n : ℕ)
    (h : ∀ i : ℕ, i ≤ n → fround ((i : ℚ) * la) = (i : ℚ) * la) :
    fsum (List.replicate n la) = (n : ℚ) * la := by
  have h0 := foldl_fadd_const la n 0 (fun i hi => h i (by omega))
  simp only [Nat.cast_zero, zero_mul, Nat.zero_add] at h0
  simpa [fsum] using h0

/-- Claim C1 (counterexample): `resolve` is not exception-free on malformed
candidates — on a candidate dictionary without a `name` key,
`get_coordinates` raises `KeyError` to its caller (modelled as
`Except.error`), so the claim as stated is false. -/
theorem resolve_raises_on_missing_name :
    get_coordinates svcDown [nameless] "Paris" = Except.error () := rfl

/-- Claim C1 (amended): provided every candidate has a `name` key,
`resolve(candidates, destination)` returns a (possibly shorter) sequence
normally and never raises to its caller; a candidate lacking `name` instead
raises `KeyError`. -/
theorem resolve_total_of_named (svc : String → GeoReply) (spots : List Spot)
    (loc : String) (h : ∀ s ∈ spots, s.name.isSome) :
    ∃ out, get_coordinates svc spots loc = Except.ok out :=
  ⟨_, get_coordinates_eq svc loc spots h⟩

/-- Claim C1 (witness): the amended theorem applied to a concrete named candidate
against a concrete service. -/
theorem resolve_total_of_named_witness :
    (∀ s ∈ [louvre], s.name.isSome) ∧
      ∃ out, get_coordinates svcAt1020 [louvre] "Paris" = Except.ok out :=
  ⟨by decide, resolve_total_of_named svcAt1020 [louvre] "Paris" (by decide)⟩

/-- Claim C2 (counterexample): when the structured chain raises, `generate` invokes
the text-generation API a second time (in `_fallback_request`), so "at most
once per call" is false. -/
theorem generate_two_api_calls :
    (get_recommendations llmDown).2 = 2 ∧ ¬(get_recommendations llmDown).2 ≤ 1 := by
  decide

/-- Claim C2 (amended): `generate` invokes the text-generation API at most twice
per call — once through the structured chain, and exactly one further
invocation (the simplified fallback prompt) if and only if the chain raised;
the bracket-extraction parse is applied to that fallback response and there
is no further retry. -/
theorem generate_api_calls_le_two (b : LLMBehavior) :
    (get_recommendations b).2 ≤ 2 ∧
    ((get_recommendations b).2 = 2 ↔ b.chainResult = ChainResult.err) := by
  cases hb : b.chainResult with
  | err =>
    have h1 : (get_recommendations b).2 = 1 + (fallback_request b).2 := by
      simp [get_recommendations, hb]
    rw [h1, fallback_request_calls b]
    exact ⟨by omega, by simp [hb]⟩
  | list xs =>
    have h1 : (get_recommendations b).2 = 1 := by simp [get_recommendations, hb]
    rw [h1]
    refine ⟨by omega, ?_, ?_⟩
    · intro h; exact absurd h (by omega)
    · intro h; exact ChainResult.noConfusion h
  | single x =>
    have h1 : (get_recommendations b).2 = 1 := by simp [get_recommendations, hb]
    rw [h1]
    refine ⟨by omega, ?_, ?_⟩
    · intro h; exact absurd h (by omega)
    · intro h; exact ChainResult.noConfusion h

/-- Claim C2 (witness): the amended theorem evaluated at a concrete behaviour. -/
theorem generate_api_calls_le_two_witness :
    (get_recommendations llmBadElement).2 ≤ 2 ∧
    ((get_recommendations llmBadElement).2 = 2 ↔
      llmBadElement.chainResult = ChainResult.err) :=
  generate_api_calls_le_two llmBadElement

/-- Claim C3 (counterexample): `generate` can return a sequence containing a
partially-malformed element — when the chain's parsed JSON list contains an
object without a `name` key, it is returned as-is. -/
theorem generate_returns_unvalidated_element :
    (get_recommendations llmBadElement).1 = some [nameless] ∧ nameless.name = none := by
  constructor
  · rfl
  · rfl

/-- Claim C3 (amended): `generate` performs no validation of parsed elements: a
parsed JSON list is returned exactly as parsed, so elements missing `name`
(or any other field) are passed through to the caller. -/
theorem generate_passthrough (b : LLMBehavior) (xs : List Spot)
    (h : b.chainResult = ChainResult.list xs) :
    (get_recommendations b).1 = some xs := by
  simp [get_recommendations, h]

/-- Claim C3 (witness): the amended theorem applied to a concrete behaviour whose
chain parses to a malformed element. -/
theorem generate_passthrough_witness :
    (get_recommendations llmBadElement).1 = some [nameless] :=
  generate_passthrough llmBadElement [nameless] rfl

/-- Claim C4 (counterexample): a pin built from a spot with no `name` and no
`remarks` gets popup `<b>Unknown</b><br>No description` — the missing fields
render as the defaults `Unknown` / `No description`, not as empty strings. -/
theorem popup_defaults_not_empty :
    (create_map [⟨none, none, none, some ⟨some 1, some 2⟩⟩]).map
        (fun m => m.pins.map Pin.popup) =
      some ["<b>Unknown</b><br>No description"] ∧
    "<b>Unknown</b><br>No description" ≠ "<b></b><br>" := by
  constructor
  · rfl
  · decide

/-- Claim C4 (amended): for every resolved spot the popup content is the spot's
name in bold followed by its description, where a missing name renders as
`Unknown` and a missing description as `No description` (rather than as
empty strings), and neither causes a failure. -/
theorem popup_name_bold_remarks (s : Spot) (h : isValidSpot s = true) :
    ∃ m, create_map [s] = some m ∧
      m.pins.map Pin.popup =
        ["<b>" ++ s.name.getD "Unknown" ++ "</b><br>" ++
          s.remarks.getD "No description"] := by
  refine ⟨_, create_map_all_valid [s] (by simp)
    (by intro x hx; rw [List.mem_singleton.mp hx]; exact h), ?_⟩
  simp [mkPins, mkPin]

/-- Claim C4 (witness): the amended theorem applied to a concrete resolved spot. -/
theorem popup_name_bold_remarks_witness :
    ∃ m, create_map [louvreAt] = some m ∧
      m.pins.map Pin.popup = ["<b>Louvre</b><br>Famous museum"] := by
  obtain ⟨m, h1, h2⟩ := popup_name_bold_remarks louvreAt (by decide)
  exact ⟨m, h1, h2.trans (by decide)⟩

/-- Claim C5 (counterexample): the Resolver performs no range validation — a
service response whose first result parses to latitude 1000 is accepted and
attached verbatim, violating latitude ∈ [-90, 90]. -/
theorem resolver_accepts_out_of_range :
    get_coordinates svcLat1000 [atlantis] "Paris" =
      Except.ok [{ atlantis with coordinates := some { lat := some 1000, lon := some 0 } }] ∧
    ¬((1000 : ℚ) ≤ 90) := by
  constructor
  · rfl
  · decide

/-- Claim C5 (amended): coordinates are attached verbatim from the geocoding
service without validation, so every attached coordinate is in range exactly
when the service's accepted responses are: if every first result the service
can return has latitude in [-90, 90] and longitude in [-180, 180], then so
does every coordinate the Resolver attaches. -/
theorem resolver_range_from_service (svc : String → GeoReply)
    (spots : List Spot) (loc : String) (out : List Spot)
    (hsvc : ∀ q fr rs, (svc q).json = some (fr :: rs) →
      (∀ la, fr.lat = some la → -90 ≤ la ∧ la ≤ 90) ∧
      (∀ lo, fr.lon = some lo → -180 ≤ lo ∧ lo ≤ 180))
    (h : get_coordinates svc spots loc = Except.ok out) :
    ∀ s ∈ out, ∀ c, s.coordinates = some c →
      (∀ la, c.lat = some la → -90 ≤ la ∧ la ≤ 90) ∧
      (∀ lo, c.lon = some lo → -180 ≤ lo ∧ lo ≤ 180) := by
  intro s hs c hc
  obtain ⟨c', nm, hc', hg⟩ := get_coordinates_ok_coords svc loc spots out h s hs
  cases Option.some.inj (hc.symm.trans hc')
  obtain ⟨q, hq⟩ := geocode_spot_attempt svc nm loc c hg
  obtain ⟨fr, rs, hjson, hla, hlo⟩ := geocode_attempt_json (svc q) c hq
  have hr := hsvc q fr rs hjson
  constructor
  · intro la h1; exact hr.1 la (hla.trans h1)
  · intro lo h1; exact hr.2 lo (hlo.trans h1)

/-- Claim C5 (witness): the amended theorem applied to an in-range service and a
concrete candidate. -/
theorem resolver_range_from_service_witness :
    ((-90 : ℚ) ≤ 10 ∧ (10 : ℚ) ≤ 90) ∧ ((-180 : ℚ) ≤ 20 ∧ (20 : ℚ) ≤ 180) := by
  have h := resolver_range_from_service svcAt1020 [louvre] "Paris"
    [{ louvre with coordinates := some { lat := some 10, lon := some 20 } }]
    (by
      intro q fr rs hj
      have hj2 : fr :: rs = [({ lat := some 10, lon := some 20 } : GeoResult)] :=
        Option.some.inj (hj.symm.trans rfl)
      obtain ⟨h1, h2⟩ := List.cons.inj hj2
      subst h1
      exact ⟨fun la hla => by cases Option.some.inj hla; exact ⟨by decide, by decide⟩,
             fun lo hlo => by cases Option.some.inj hlo; exact ⟨by decide, by decide⟩⟩)
    rfl
  have h2 := h { louvre with coordinates := some { lat := some 10, lon := some 20 } }
    (List.mem_singleton.mpr rfl) { lat := some 10, lon := some 20 } rfl
  exact ⟨h2.1 10 rfl, h2.2 20 rfl⟩

/-- Claim C6 (theorem): for every candidate sequence (each candidate carrying a
`name`, as the SpotCandidate data model guarantees) and destination,
`resolve` returns exactly the subsequence of candidates for which geocoding
succeeded, in input order, each with its coordinate attached; failed
candidates are dropped, not errors. -/
theorem resolve_filters_geocoded (svc : String → GeoReply) (spots : List Spot)
    (loc : String) (h : ∀ s ∈ spots, s.name.isSome) :
    get_coordinates svc spots loc =
      Except.ok
        ((spots.filter fun s =>
            (_geocode_spot svc (s.name.getD "") loc).isSome).map
          fun s =>
            { s with coordinates := _geocode_spot svc (s.name.getD "") loc }) :=
  get_coordinates_eq svc loc spots h

/-- Claim C6 (witness): a concrete run where one of two candidates fails all three
phrasings and is dropped while the other is returned with its coordinate. -/
theorem resolve_filters_geocoded_witness :
    get_coordinates svcNoAtlantis [louvre, atlantis] "Paris" =
      Except.ok [{ louvre with coordinates := some { lat := some 10, lon := some 20 } }] := by
  rw [resolve_filters_geocoded svcNoAtlantis [louvre, atlantis] "Paris" (by decide)]
  decide

/-- Claim C7 (theorem): per spot, the geocoder issues at most three lookups with
exactly the phrasings `"<name>, <destination>"`, `"<name>"`,
`"<destination> <name>"` in that order; either some prefix of phrasings
fails, the next one succeeds, its coordinate is returned and no further
lookup is issued, or all three fail and the result is `none`. -/
theorem geocode_spot_three_phrasings (svc : String → GeoReply)
    (nm dest : String) :
    search_queries nm dest = [nm ++ ", " ++ dest, nm, dest ++ " " ++ nm] ∧
    _geocode_spot svc nm dest = (geocode_go svc (search_queries nm dest)).1 ∧
    (geocode_go svc (search_queries nm dest)).2.length ≤ 3 ∧
    (((geocode_go svc (search_queries nm dest)).1 = none ∧
      (geocode_go svc (search_queries nm dest)).2 = search_queries nm dest ∧
      ∀ q ∈ search_queries nm dest, geocode_attempt (svc q) = none) ∨
     (∃ qs₁ q qs₂ c, search_queries nm dest = qs₁ ++ q :: qs₂ ∧
      (geocode_go svc (search_queries nm dest)).2 = qs₁ ++ [q] ∧
      (∀ x ∈ qs₁, geocode_attempt (svc x) = none) ∧
      geocode_attempt (svc q) = some c ∧
      (geocode_go svc (search_queries nm dest)).1 = some c)) :=
  ⟨rfl, rfl, geocode_go_len svc (search_queries nm dest),
    geocode_go_cases svc (search_queries nm dest)⟩

/-- Claim C7 (witness): against a service where every lookup fails, all three
phrasings are issued in order and the spot resolves to `none`. -/
theorem geocode_spot_three_phrasings_witness :
    (geocode_go svcDown (search_queries "Eiffel" "Paris")).2 =
      ["Eiffel, Paris", "Eiffel", "Paris Eiffel"] ∧
    _geocode_spot svcDown "Eiffel" "Paris" = none := by
  obtain ⟨hq, hdef, hlen, hcases⟩ :=
    geocode_spot_three_phrasings svcDown "Eiffel" "Paris"
  rcases hcases with ⟨h1, h2, h3⟩ | ⟨qs₁, q, qs₂, c, hsplit, hiss, hfail, hsucc, hres⟩
  · exact ⟨h2.trans hq, hdef.trans h1⟩
  · exact absurd hsucc (by intro hh; exact Option.noConfusion ((rfl : geocode_attempt (svcDown q) = none).symm.trans hh))

/-- Claim C8 (counterexample): three spots sharing the coordinate `(0.1, 0)`
— `0.1` being the binary64 value `3602879701896397 * 2^(-55)` — yield center
latitude `7205759403792795 * 2^(-56)` (Python's `0.10000000000000002`), while
the exact arithmetic mean of the three latitudes is `0.1` itself: float
rounding inside `sum(lats) / len(lats)` makes the computed center differ from
both the exact mean and the shared coordinate, so the "equals exactly" claim
is false of the code. -/
theorem assemble_center_rounds :
    (create_map [⟨some "A", none, none, some ⟨some q01, some 0⟩⟩,
        ⟨some "A", none, none, some ⟨some q01, some 0⟩⟩,
        ⟨some "A", none, none, some ⟨some q01, some 0⟩⟩]).map MapModel.center_lat =
      some (7205759403792795 / 72057594037927936) ∧
    (q01 + q01 + q01) / 3 = q01 ∧
    (7205759403792795 / 72057594037927936 : ℚ) ≠ q01 := by
  refine ⟨?_, by decide, by decide⟩
  decide

/-- Claim C8 (amended): on a non-empty sequence of spots with valid
coordinates, the view center is the latitude/longitude sums and divisions
evaluated in binary64 float arithmetic (`sum(...)/len(...)` with rounding at
every step), not the exact arithmetic mean; when every multiple of the
coordinate values up to the spot count is reproduced exactly by float
rounding — e.g. for small integer coordinates, and in particular whenever no
intermediate operation rounds — a shared coordinate is reproduced exactly as
the center. -/
theorem assemble_center_float_mean (spots : List Spot) (hne : spots ≠ [])
    (hv : ∀ s ∈ spots, isValidSpot s = true) :
    ∃ m, create_map spots = some m ∧
      m.center_lat = fdiv (fsum (spots.map spotLat)) (spots.length : ℚ) ∧
      m.center_lon = fdiv (fsum (spots.map spotLon)) (spots.length : ℚ) ∧
      ∀ la lo : ℚ, (∀ s ∈ spots, spotLat s = la ∧ spotLon s = lo) →
        (∀ i : ℕ, i ≤ spots.length →
          fround ((i : ℚ) * la) = (i : ℚ) * la ∧ fround ((i : ℚ) * lo) = (i : ℚ) * lo) →
        m.center_lat = la ∧ m.center_lon = lo := by
  refine ⟨_, create_map_all_valid spots hne hv, rfl, rfl, ?_⟩
  intro la lo hconst hexact
  have hn : (spots.length : ℚ) ≠ 0 :=
    Nat.cast_ne_zero.mpr (fun h0 => hne (List.length_eq_zero.mp h0))
  have hpos : 1 ≤ spots.length := List.length_pos.mpr hne
  constructor
  · show fdiv (fsum (spots.map spotLat)) (spots.length : ℚ) = la
    have hrep : spots.map spotLat = List.replicate spots.length la := by
      rw [show spots.length = (spots.map spotLat).length from (List.length_map _ _).symm]
      refine List.eq_replicate_of_mem ?_
      intro y hy
      obtain ⟨s, hs, rfl⟩ := List.mem_map.mp hy
      exact (hconst s hs).1
    rw [hrep, fsum_const la spots.length (fun i hi => (hexact i hi).1), fdiv,
      mul_div_cancel_left₀ la hn]
    simpa using (hexact 1 hpos).1
  · show fdiv (fsum (spots.map spotLon)) (spots.length : ℚ) = lo
    have hrep : spots.map spotLon = List.replicate spots.length lo := by
      rw [show spots.length = (spots.map spotLon).length from (List.length_map _ _).symm]
      refine List.eq_replicate_of_mem ?_
      intro y hy
      obtain ⟨s, hs, rfl⟩ := List.mem_map.mp hy
      exact (hconst s hs).2
    rw [hrep, fsum_const lo spots.length (fun i hi => (hexact i hi).2), fdiv,
      mul_div_cancel_left₀ lo hn]
    simpa using (hexact 1 hpos).2

/-- Claim C8 (witness): two spots sharing the integer coordinate (3, 4) — on
which every float operation is exact — produce a map centered exactly at
(3, 4). -/
theorem assemble_center_float_mean_witness :
    ∃ m, create_map [⟨some "A", none, none, some ⟨some 3, some 4⟩⟩,
        ⟨some "B", none, none, some ⟨some 3, some 4⟩⟩] = some m ∧
      m.center_lat = 3 ∧ m.center_lon = 4 := by
  obtain ⟨m, hm, _, _, hconst⟩ := assemble_center_float_mean
    [⟨some "A", none, none, some ⟨some 3, some 4⟩⟩,
     ⟨some "B", none, none, some ⟨some 3, some 4⟩⟩] (by decide) (by decide)
  have h := hconst 3 4 (by decide) (by decide)
  exact ⟨m, hm, h.1, h.2⟩

/-- Claim C9 (theorem): `assemble` yields empty output on an empty input and on any
input in which no spot has a well-formed coordinate, and when it does render,
it produces exactly one pin per coordinate-bearing spot, each pin located at
a valid spot of the input. -/
theorem assemble_empty_cases :
    create_map [] = none ∧
    (∀ spots : List Spot, (∀ s ∈ spots, isValidSpot s = false) →
      create_map spots = none) ∧
    (∀ (spots : List Spot) (m : MapModel), create_map spots = some m →
      m.pins.length = (spots.filter isValidSpot).length ∧
      ∀ p ∈ m.pins, ∃ s ∈ spots, isValidSpot s = true ∧
        p.lat = spotLat s ∧ p.lon = spotLon s) := by
  refine ⟨rfl, ?_, ?_⟩
  · intro spots h
    have hfil : spots.filter isValidSpot = [] :=
      List.filter_eq_nil_iff.mpr (fun a ha => by simp [h a ha])
    simp [create_map, hfil]
  · intro spots m h
    obtain ⟨_, _, hp⟩ := create_map_some spots m h
    constructor
    · rw [hp, mkPins_length]
    · intro p hpin
      rw [hp] at hpin
      obtain ⟨s, hs, h1, h2⟩ := mkPins_mem 0 _ p hpin
      exact ⟨s, (List.mem_filter.mp hs).1, (List.mem_filter.mp hs).2, h1, h2⟩

/-- Claim C9 (witness): the theorem applied to the empty input and to a one-spot
input without a coordinate. -/
theorem assemble_empty_cases_witness :
    create_map [] = none ∧ create_map [atlantis] = none :=
  ⟨assemble_empty_cases.1, assemble_empty_cases.2.1 [atlantis] (by decide)⟩

/-- Claim C10 (theorem): the store-passing resolver never mutates its input —
every dictionary allocated before the call (in particular every input
candidate) is unchanged after a normal return, because each candidate is
copied before the coordinate is attached. -/
theorem resolve_preserves_input_store (svc : String → GeoReply) (σ : Store)
    (addrs : List Nat) (loc : String) (σ' : Store) (outs : List Nat)
    (h : get_coordinates_st svc σ addrs loc = Except.ok (σ', outs)) :
    σ.next ≤ σ'.next ∧ ∀ a, a < σ.next → σ'.mem a = σ.mem a :=
  get_coordinates_st_frame svc loc addrs σ σ' outs h

/-- Claim C10 (witness): a concrete run on a one-candidate heap leaves the input
candidate at address 0 unchanged. -/
theorem resolve_preserves_input_store_witness :
    ((storeDemo.alloc louvre).1.write 1
        { louvre with coordinates := some { lat := some 10, lon := some 20 } }).mem 0 =
      storeDemo.mem 0 ∧
    storeDemo.next ≤
      ((storeDemo.alloc louvre).1.write 1
        { louvre with coordinates := some { lat := some 10, lon := some 20 } }).next := by
  have h := resolve_preserves_input_store svcAt1020 storeDemo [0] "Paris"
    ((storeDemo.alloc louvre).1.write 1
      { louvre with coordinates := some { lat := some 10, lon := some 20 } })
    [1] rfl
  exact ⟨h.2 0 (by decide), h.1⟩
